import Mathlib

/-!
Verification of the `opencode-context-filter` proxy
(`src/ollama_context_filter_proxy.py`) against its natural-language
specification.

The Python program is shallowly embedded here:

* prompt text is modelled as `List Char` (`str`);
* the three section-removal regexes (`<project>.*?</project>`,
  `<env>.*?</env>`, `Instructions from:.*?(?=\n\n|\Z)`, all with
  `re.DOTALL`) are modelled by an explicit leftmost-shortest scanner
  (`searchFirst` for `re.search`, `subAll` for `re.sub`, which removes
  every non-overlapping occurrence scanning left to right);
* dictionaries are modelled as association lists in insertion order
  (`lookupKey` for `dict.get` / `in`, `setKey` for item assignment,
  which overwrites in place or appends a new key at the end);
* JSON bodies are modelled by the inductive `JVal` together with a
  recursive-descent parser `json_loads` (non-integer numbers are
  carried opaquely as their literal text: the program never computes
  with numbers) and a serializer `json_dumps` using Python's default
  separators; request bodies are modelled as text, the lossless
  UTF-8 decode of line 652 being left implicit;
* raised exceptions that reach the request handler's outer
  `except Exception` (which answers 500) are modelled by `Except`:
  `.error` is an aborted request, `.ok` the bytes forwarded upstream;
* wall-clock fields (`time_ms`) are modelled as `0`, and the
  stderr/file logging side channels are not modelled: they do not
  affect any returned value.

All definitions follow the source file; line references are given in
the doc comments.
-/

/-! ## Basic string machinery (model of Python `str` operations) -/

/-- Model of Python `str.startswith` / a literal match at the head of a
string: `startsWith pat s` is true iff `pat` is a prefix of `s`. -/
def startsWith (pat s : List Char) : Bool :=
  List.isPrefixOf pat s

/-- Index of the first occurrence of the literal `pat` inside `s`
(`none` if `pat` never occurs).  Model of Python `str.find` /
the scanning performed by `re` for a literal sub-pattern. -/
def findSub (pat : List Char) : List Char → Option Nat
  | [] => if pat.isEmpty then some 0 else none
  | c :: rest =>
    if List.isPrefixOf pat (c :: rest) then some 0
    else (findSub pat rest).map (· + 1)

/-- Model of the Python substring test `pat in s`. -/
def containsSub (pat s : List Char) : Bool :=
  (findSub pat s).isSome

/-- ASCII lower-casing of one character; model of `str.lower()` for the
ASCII model names the program compares (line 359). -/
def lowerAscii (c : Char) : Char :=
  if 'A' ≤ c ∧ c ≤ 'Z' then Char.ofNat (c.toNat + 32) else c

/-- Model of `model_name.lower()`. -/
def pyLower (s : List Char) : List Char :=
  s.map lowerAscii

/-- The whitespace class stripped by Python `str.strip()` (ASCII part). -/
def isPySpace (c : Char) : Bool :=
  c = ' ' ∨ c = '\t' ∨ c = '\n' ∨ c = '\r' ∨ c = Char.ofNat 11 ∨ c = Char.ofNat 12

/-- Model of Python `str.strip()`: drop leading and trailing whitespace. -/
def pyStrip (s : List Char) : List Char :=
  ((s.dropWhile isPySpace).reverse.dropWhile isPySpace).reverse

/-! ## The regex scanner

A *matcher* receives the suffix of the text starting at the current
scan position and answers `some n` when a match of length `n ≥ 1`
starts exactly there.  `searchFirst` models `re.search` (leftmost
match, returning its length = the size of the matched span) and
`subAll` models `re.sub(pattern, "", text)` (remove every
non-overlapping occurrence, scanning left to right and resuming right
after each removed match). -/

/-- Length of the leftmost match of matcher `m` in `s` (model of
`re.search`; the program only uses the size of `match.group(0)`). -/
def searchFirst (m : List Char → Option Nat) : List Char → Option Nat
  | [] => none
  | c :: rest =>
    match m (c :: rest) with
    | some n => some n
    | none => searchFirst m rest

/-- Fuel-driven worker for `subAll`; the fuel is an upper bound on the
number of scanning steps (one per character of the text), which keeps
the recursion structural and kernel-computable. -/
def subAllAux (m : List Char → Option Nat) : Nat → List Char → List Char
  | 0, _ => []
  | _ + 1, [] => []
  | fuel + 1, c :: rest =>
    match m (c :: rest) with
    | some n => subAllAux m fuel (rest.drop (n - 1))
    | none => c :: subAllAux m fuel rest

/-- Model of `re.sub(pattern, "", text, flags=re.DOTALL)`: remove every
non-overlapping occurrence, scanning left to right. -/
def subAll (m : List Char → Option Nat) (s : List Char) : List Char :=
  subAllAux m s.length s

/-- Matcher for a DOTALL non-greedy tag pair `openT.*?closeT` (the
`<project>…</project>` and `<env>…</env>` patterns of lines 458 and
472): at the current position the opening literal must match, and the
match extends to the *first* subsequent occurrence of the closing
literal. -/
def tagMatcher (openT closeT s : List Char) : Option Nat :=
  if startsWith openT s then
    (findSub closeT (s.drop openT.length)).map
      (fun k => openT.length + k + closeT.length)
  else none

/-! ## Program constants (configuration section, lines 29–106) -/

/-- `SMALL_MODELS` (lines 35–49). -/
def SMALL_MODELS : List (List Char) :=
  ["llama3.2:1b".toList, "llama3.2-1b".toList, "qwen2.5:1.5b".toList,
   "qwen2.5-1.5b".toList, "qwen3-large".toList,
   "llama3-groq-tool-use-large".toList, "phi4-mini-large".toList,
   "granite4-large".toList]

/-- `DISABLE_FILTERING` (line 68). -/
def DISABLE_FILTERING : Bool := false

/-- `ENABLE_TOOL_FILTERING` (line 78). -/
def ENABLE_TOOL_FILTERING : Bool := true

/-- `REMOVE_DUPLICATE_TOOLS` (line 81). -/
def REMOVE_DUPLICATE_TOOLS : Bool := true

/-- `STRIP_TOOL_DESCRIPTIONS` (line 84). -/
def STRIP_TOOL_DESCRIPTIONS : Bool := true

/-- `ESSENTIAL_TOOLS_ONLY` (line 87). -/
def ESSENTIAL_TOOLS_ONLY : Bool := true

/-- `AUTO_INCREASE_CONTEXT` (line 90). -/
def AUTO_INCREASE_CONTEXT : Bool := true

/-- `DEFAULT_CONTEXT_SIZE` (line 91). -/
def DEFAULT_CONTEXT_SIZE : Nat := 32768

/-- `ESSENTIAL_TOOLS` (lines 94–106). -/
def ESSENTIAL_TOOLS : List (List Char) :=
  ["bash".toList, "read".toList, "write".toList, "edit".toList,
   "grep".toList, "glob".toList, "list".toList, "task".toList,
   "webfetch".toList, "todoread".toList, "todowrite".toList]

/-! ## The Content Classifier (line 359) -/

/-- The classifier contract `isSmallModel(modelName, knownList)`: the
body of line 359,
`any(sm in model_name.lower() for sm in SMALL_MODELS)`, generalized
over the known-small list exactly as the specification's §4.1 states
the contract.  The program instantiates `knownList := SMALL_MODELS`. -/
def isSmallModelWith (modelName : List Char) (knownList : List (List Char)) : Bool :=
  knownList.any (fun sm => containsSub sm (pyLower modelName))

/-! ## The Prompt Rewriter (`filter_system_prompt`, lines 348–620) -/

/-- One chat message, projected to the fields the program reads and
writes: `role` and `content` (other keys of the message dictionary are
never touched by the rewriter). -/
structure Message where
  role : List Char
  content : List Char
deriving DecidableEq, Repr

/-- One entry of `filter_stats["sections_removed"]` (a `name`/`size`
pair, lines 464–490). -/
structure SecEntry where
  name : List Char
  size : Nat
deriving DecidableEq, Repr

/-- `filter_stats` (lines 361–369).  `time_ms` is wall-clock time,
modelled as `0`; the `message_breakdown` entry is initialized to the
empty list and never written by the program, so it is omitted. -/
structure FilterStats where
  is_small_model : Bool
  sections_removed : List SecEntry
  original_size : Nat
  filtered_size : Nat
  time_ms : Nat
  total_messages : Nat
deriving DecidableEq, Repr

/-- The opening literal of the project-tree pattern (line 458). -/
def projOpen : List Char := "<project>".toList

/-- The closing literal of the project-tree pattern (line 458). -/
def projClose : List Char := "</project>".toList

/-- The opening literal of the environment pattern (line 472). -/
def envOpen : List Char := "<env>".toList

/-- The closing literal of the environment pattern (line 472). -/
def envClose : List Char := "</env>".toList

/-- The project-tree section matcher, `<project>.*?</project>` with
`re.DOTALL` (lines 458–469). -/
def projMatcher (s : List Char) : Option Nat :=
  tagMatcher projOpen projClose s

/-- The environment section matcher, `<env>.*?</env>` with `re.DOTALL`
(lines 472–479). -/
def envMatcher (s : List Char) : Option Nat :=
  tagMatcher envOpen envClose s

/-- The literal head of the instruction-block pattern (line 483). -/
def instrLit : List Char := "Instructions from:".toList

/-- The two-newline separator consulted by the instruction pattern's
lookahead. -/
def nn : List Char := "\n\n".toList

/-- The instruction-block matcher,
`Instructions from:.*?(?=\n\n|\Z)` with `re.DOTALL` (lines 482–493):
after the literal head the non-greedy body extends to the first
position followed by a blank line (`\n\n`, not consumed) or, failing
that, to the end of the string (`\Z`). -/
def instrMatcher (s : List Char) : Option Nat :=
  if startsWith instrLit s then
    match findSub nn (s.drop instrLit.length) with
    | some k => some (instrLit.length + k)
    | none => some s.length
  else none

/-- One extraction step of the rewriter (the common shape of lines
457–493): if the pattern matches somewhere, record a
`sections_removed` entry named `name` whose size is the length of the
*first* match, and delete every non-overlapping occurrence
(`re.sub` with no count argument); otherwise leave the text unchanged
and record nothing. -/
def removeSection (name : List Char) (m : List Char → Option Nat)
    (content : List Char) : List Char × List SecEntry :=
  match searchFirst m content with
  | some k => (subAll m content, [⟨name, k⟩])
  | none => (content, [])

/-- The three section removals applied to one system-prompt string, in
the program's fixed order: project tree (lines 457–469), environment
(lines 471–479), instruction block (lines 481–493). -/
def sectionsPass (content : List Char) : List Char × List SecEntry :=
  let p := removeSection "project".toList projMatcher content
  let e := removeSection "env".toList envMatcher p.1
  let i := removeSection "instructions".toList instrMatcher e.1
  (i.1, p.2 ++ e.2 ++ i.2)

/-- The minimal environment stub appended by the rewriter
(lines 496–500). -/
def minimalEnv : List Char :=
  "<env>\n  Working directory: (current directory)\n  Platform: linux\n  Today's date: (current date)\n</env>".toList

/-- Full rewrite of one system-prompt string (lines 455–508): run the
three section removals, then append the minimal environment stub to
the stripped remainder — or make the stub the whole content when
nothing (up to whitespace) remains.  Returns the new content together
with the `sections_removed` entries this message contributed. -/
def filterSystemContent (content : List Char) : List Char × List SecEntry :=
  let r := sectionsPass content
  let final :=
    if pyStrip r.1 ≠ [] then pyStrip r.1 ++ nn ++ minimalEnv else minimalEnv
  (final, r.2)

/-- The message loop of `filter_system_prompt` (lines 436–536):
system messages are rewritten, all other messages pass through in
order.  Returns the rewritten list, the concatenated
`sections_removed` entries, and — following lines 441 and 508, where
each system message *overwrites* `original_size`/`filtered_size` — the
original/filtered sizes of the **last** system message (`none` when
the list has no system message, in which case both stats stay `0`). -/
def processMessages : List Message → List Message × List SecEntry × Option (Nat × Nat)
  | [] => ([], [], none)
  | msg :: rest =>
    if msg.role = "system".toList then
      let r := filterSystemContent msg.content
      let tail := processMessages rest
      (⟨msg.role, r.1⟩ :: tail.1, r.2 ++ tail.2.1,
        some (tail.2.2.getD (msg.content.length, r.1.length)))
    else
      let tail := processMessages rest
      (msg :: tail.1, tail.2.1, tail.2.2)

/-- `filter_system_prompt(messages, model_name)` (lines 348–620).
Checks the classifier (line 359), short-circuits on the
disable-filtering toggle (line 372) and on non-small models
(line 381) — both returning the messages unchanged with the zeroed
stats of lines 361–369 — and otherwise rewrites every system
message. -/
def filter_system_prompt (messages : List Message) (model_name : List Char) :
    List Message × FilterStats :=
  let is_small := isSmallModelWith model_name SMALL_MODELS
  let stats0 : FilterStats :=
    { is_small_model := is_small, sections_removed := [], original_size := 0,
      filtered_size := 0, time_ms := 0, total_messages := messages.length }
  if DISABLE_FILTERING then (messages, stats0)
  else if !is_small then (messages, stats0)
  else
    let r := processMessages messages
    let sz := r.2.2.getD (0, 0)
    (r.1,
      { stats0 with sections_removed := r.2.1, original_size := sz.1,
                    filtered_size := sz.2 })

/-! ## The Tool Pruner (`filter_tools`, lines 154–264) -/

/-- One tool definition, projected to the fields the program reads and
writes: `tool["function"]["name"]` and `tool["function"]["description"]`
(the parameter schema and any other keys are never touched). -/
structure Tool where
  name : List Char
  description : List Char
deriving DecidableEq, Repr

/-- `tool_stats` (lines 168–177), restricted to its count fields.  The
`original_size`/`filtered_size`/`reduction_pct` entries are lengths of
`json.dumps` serializations used only for logging, and are not
modelled; `filtered` records which branch produced the stats (the
disabled branch of line 166 returns `{"filtered": False}`). -/
structure ToolStats where
  filtered : Bool
  original_count : Nat
  removed_duplicates : Nat
  stripped_descriptions : Nat
  removed_tools : Nat
  filtered_count : Nat
deriving DecidableEq, Repr

/-- The truncation marker appended by line 201. -/
def truncMarker : List Char := "...".toList

/-- The description truncation of lines 198–202: descriptions longer
than 200 characters are cut to their first 200 characters with the
marker appended (applied only when `STRIP_TOOL_DESCRIPTIONS`). -/
def stripDesc (t : Tool) : Tool :=
  if STRIP_TOOL_DESCRIPTIONS ∧ 200 < t.description.length then
    ⟨t.name, t.description.take 200 ++ truncMarker⟩
  else t

/-- The tool loop of lines 179–205.  `seen` models the `seen_tools`
set (names of tools kept so far).  Per tool, in the program's order:
drop it when `REMOVE_DUPLICATE_TOOLS` is on, its name starts with
`index_` and the un-prefixed name was already kept (lines 186–190);
drop it when `ESSENTIAL_TOOLS_ONLY` is on and its name is not in the
allow-list (lines 193–195); otherwise truncate its description if
needed and keep it, adding its (full) name to `seen` (lines 197–205).
Returns the kept tools and the `removed_duplicates`,
`removed_tools`, `stripped_descriptions` counters. -/
def filterToolsLoop (seen : List (List Char)) :
    List Tool → List Tool × Nat × Nat × Nat
  | [] => ([], 0, 0, 0)
  | t :: rest =>
    if REMOVE_DUPLICATE_TOOLS ∧ startsWith "index_".toList t.name
        ∧ (t.name.drop 6) ∈ seen then
      let r := filterToolsLoop seen rest
      (r.1, r.2.1 + 1, r.2.2.1, r.2.2.2)
    else if ESSENTIAL_TOOLS_ONLY ∧ t.name ∉ ESSENTIAL_TOOLS then
      let r := filterToolsLoop seen rest
      (r.1, r.2.1, r.2.2.1 + 1, r.2.2.2)
    else
      let kept := stripDesc t
      let r := filterToolsLoop (t.name :: seen) rest
      (kept :: r.1, r.2.1, r.2.2.1,
        r.2.2.2 + (if kept = t then 0 else 1))

/-- `filter_tools(tools, model_name)` (lines 154–264).  The
`model_name` argument is only used by the logging side channel.  When
`ENABLE_TOOL_FILTERING` is off (dead under this configuration) the
input passes through with `filtered := false`; otherwise the loop
above runs with an initially empty `seen_tools` set. -/
def filter_tools (tools : List Tool) (model_name : List Char) :
    List Tool × ToolStats :=
  if !ENABLE_TOOL_FILTERING then
    (tools, ⟨false, 0, 0, 0, 0, 0⟩)
  else
    let r := filterToolsLoop [] tools
    (r.1,
      { filtered := true, original_count := tools.length,
        removed_duplicates := r.2.1, removed_tools := r.2.2.1,
        stripped_descriptions := r.2.2.2, filtered_count := r.1.length })

/-! ## JSON model (`json.loads` / `json.dumps`) -/

/-- JSON values, with objects as association lists in insertion
order (Python `dict` preserves insertion order).  Numbers are
modelled as integers: no verified behaviour involves floating-point
literals. -/
inductive JVal where
  | null : JVal
  | bool (b : Bool) : JVal
  | num (n : Int) : JVal
  /-- A non-integer numeric literal (float / `NaN` / `Infinity`),
  carried opaquely as its source text: the program never computes with
  numbers, so float arithmetic is never modelled. -/
  | fnum (lit : List Char) : JVal
  | str (s : List Char) : JVal
  | arr (elems : List JVal) : JVal
  | obj (fields : List (List Char × JVal)) : JVal

/-- Model of `d.get(k)` / `k in d` on a decoded JSON object: the value
of the first (unique, for objects built by `setKey`) binding of `k`. -/
def lookupKey : List (List Char × JVal) → List Char → Option JVal
  | [], _ => none
  | (k, v) :: rest, key => if k = key then some v else lookupKey rest key

/-- Model of `d[k] = v` on a Python dict: overwrite the first binding
of `k` in place, or append a new binding at the end. -/
def setKey : List (List Char × JVal) → List Char → JVal → List (List Char × JVal)
  | [], key, v => [(key, v)]
  | (k, w) :: rest, key, v =>
    if k = key then (key, v) :: rest else (k, w) :: setKey rest key v

/-- Python truthiness of a decoded JSON value (`if data["tools"]:`). -/
def jTruthy : JVal → Bool
  | .null => false
  | .bool b => b
  | .num n => n != 0
  -- Python treats float `0.0` as falsy; this model marks every float
  -- truthy — no verified behaviour reaches a float in a truthiness test.
  | .fnum _ => true
  | .str s => !s.isEmpty
  | .arr l => !l.isEmpty
  | .obj l => !l.isEmpty

/-- JSON whitespace skipped between tokens (`json.decoder` skips
space, tab, newline, carriage return). -/
def skipWs (s : List Char) : List Char :=
  s.dropWhile (fun c => c = ' ' ∨ c = '\t' ∨ c = '\n' ∨ c = '\r')

/-- ASCII digit test. -/
def isDigitCh (c : Char) : Bool :=
  '0' ≤ c ∧ c ≤ '9'

/-- Value of one hexadecimal digit, if it is one. -/
def hexDigit (c : Char) : Option Nat :=
  if '0' ≤ c ∧ c ≤ '9' then some (c.toNat - 48)
  else if 'a' ≤ c ∧ c ≤ 'f' then some (c.toNat - 87)
  else if 'A' ≤ c ∧ c ≤ 'F' then some (c.toNat - 55)
  else none

/-- Body of a JSON string after the opening quote: returns the decoded
content and the remainder after the closing quote.  Escapes
`\" \\ \/ \b \f \n \r \t` and `\uXXXX` are decoded (an unpaired
surrogate escape decodes to `'\0'` rather than a lone surrogate — no
verified behaviour involves one); raw control characters are rejected,
as in strict-mode `json.loads`. -/
def parseStrBody : List Char → Option (List Char × List Char)
  | [] => none
  | c :: rest =>
    if c = '"' then some ([], rest)
    else if c = '\\' then
      match rest with
      | 'u' :: h1 :: h2 :: h3 :: h4 :: rest2 =>
        match hexDigit h1, hexDigit h2, hexDigit h3, hexDigit h4 with
        | some a, some b, some c, some d =>
          (parseStrBody rest2).map
            (fun p => (Char.ofNat (((a * 16 + b) * 16 + c) * 16 + d) :: p.1, p.2))
        | _, _, _, _ => none
      | e :: rest2 =>
        let dec : Option Char :=
          if e = '"' then some '"'
          else if e = '\\' then some '\\'
          else if e = '/' then some '/'
          else if e = 'b' then some (Char.ofNat 8)
          else if e = 'f' then some (Char.ofNat 12)
          else if e = 'n' then some '\n'
          else if e = 'r' then some '\r'
          else if e = 't' then some '\t'
          else none
        match dec with
        | some d => (parseStrBody rest2).map (fun p => (d :: p.1, p.2))
        | none => none
      | [] => none
    else if c.toNat < 32 then none
    else (parseStrBody rest).map (fun p => (c :: p.1, p.2))

/-- Digit-run value accumulator. -/
def digitsVal (ds : List Char) : Nat :=
  ds.foldl (fun a c => a * 10 + (c.toNat - 48)) 0

/-- A JSON numeric literal: optional minus, integer digits with no
superfluous leading zero, optional fraction, optional exponent.  A
pure integer becomes `.num`; any fraction or exponent makes it a
`.fnum` carrying the literal text. -/
def parseNumTok (s : List Char) : Option (JVal × List Char) :=
  let sign : List Char × List Char :=
    match s with
    | '-' :: r => (['-'], r)
    | _ => ([], s)
  let ds := sign.2.takeWhile isDigitCh
  let r1 := sign.2.dropWhile isDigitCh
  if ds.isEmpty then none
  else if 1 < ds.length ∧ ds.headD ' ' = '0' then none
  else
    let fr : Option (List Char × List Char) :=
      match r1 with
      | '.' :: r2 =>
        let fs := r2.takeWhile isDigitCh
        if fs.isEmpty then none else some ('.' :: fs, r2.dropWhile isDigitCh)
      | _ => some ([], r1)
    match fr with
    | none => none
    | some (fchars, r2) =>
      let ex : Option (List Char × List Char) :=
        match r2 with
        | c :: r3 =>
          if c = 'e' ∨ c = 'E' then
            let sg : List Char × List Char :=
              match r3 with
              | '+' :: r => (['+'], r)
              | '-' :: r => (['-'], r)
              | _ => ([], r3)
            let es := sg.2.takeWhile isDigitCh
            if es.isEmpty then none
            else some (c :: sg.1 ++ es, sg.2.dropWhile isDigitCh)
          else some ([], r2)
        | [] => some ([], r2)
      match ex with
      | none => none
      | some (echars, r5) =>
        if fchars.isEmpty ∧ echars.isEmpty then
          some (.num (if sign.1.isEmpty then (digitsVal ds : Int)
                      else -(digitsVal ds : Int)), r5)
        else some (.fnum (sign.1 ++ ds ++ fchars ++ echars), r5)

mutual

/-- Recursive-descent parser for one JSON value, fuel-indexed to keep
the recursion structural (the fuel strictly exceeds any possible
nesting-plus-element count, see `json_loads`). -/
def parseVal : Nat → List Char → Option (JVal × List Char)
  | 0, _ => none
  | fuel + 1, s =>
    match skipWs s with
    | [] => none
    | c :: rest =>
      if c = '"' then (parseStrBody rest).map (fun p => (.str p.1, p.2))
      else if c = '[' then
        match skipWs rest with
        | ']' :: r2 => some (.arr [], r2)
        | r => (parseItems fuel r).map (fun p => (.arr p.1, p.2))
      else if c = Char.ofNat 123 then
        match skipWs rest with
        | r =>
          if r.headD ' ' = Char.ofNat 125 then some (.obj [], r.tail)
          else
            (parseFields fuel r).map
              (fun p => (.obj (p.1.foldl (fun d q => setKey d q.1 q.2) []), p.2))
      else if c = 't' then
        if startsWith "rue".toList rest then some (.bool true, rest.drop 3) else none
      else if c = 'f' then
        if startsWith "alse".toList rest then some (.bool false, rest.drop 4) else none
      else if c = 'n' then
        if startsWith "ull".toList rest then some (.null, rest.drop 3) else none
      else if c = 'N' then
        if startsWith "aN".toList rest then some (.fnum "NaN".toList, rest.drop 2)
        else none
      else if c = 'I' then
        if startsWith "nfinity".toList rest then
          some (.fnum "Infinity".toList, rest.drop 7)
        else none
      else if c = '-' ∧ startsWith "Infinity".toList rest then
        some (.fnum "-Infinity".toList, rest.drop 8)
      else parseNumTok (c :: rest)

/-- Comma-separated array elements up to the closing bracket. -/
def parseItems : Nat → List Char → Option (List JVal × List Char)
  | 0, _ => none
  | fuel + 1, s =>
    match parseVal fuel s with
    | none => none
    | some (v, r) =>
      match skipWs r with
      | ',' :: r2 => (parseItems fuel r2).map (fun p => (v :: p.1, p.2))
      | ']' :: r2 => some ([v], r2)
      | _ => none

/-- Comma-separated `"key": value` members up to the closing brace. -/
def parseFields : Nat → List Char → Option (List (List Char × JVal) × List Char)
  | 0, _ => none
  | fuel + 1, s =>
    match skipWs s with
    | '"' :: rest =>
      match parseStrBody rest with
      | none => none
      | some (key, r) =>
        match skipWs r with
        | ':' :: r2 =>
          match parseVal fuel r2 with
          | none => none
          | some (v, r3) =>
            match skipWs r3 with
            | ',' :: r4 => (parseFields fuel r4).map (fun p => ((key, v) :: p.1, p.2))
            | r4 =>
              if r4.headD ' ' = Char.ofNat 125 then some ([(key, v)], r4.tail)
              else none
        | _ => none
    | _ => none

end

/-- Model of `json.loads` on the request text: parse one value and
require only whitespace to remain (duplicate object keys follow
Python's last-wins dict construction via `setKey`). -/
def json_loads (s : List Char) : Option JVal :=
  match parseVal (s.length + 2) s with
  | some (v, rest) => if (skipWs rest).isEmpty then some v else none
  | none => none

/-- Lower-case hexadecimal digit. -/
def hexCharOf (n : Nat) : Char :=
  if n < 10 then Char.ofNat (48 + n) else Char.ofNat (87 + n)

/-- Four-digit hexadecimal rendering used by `\uXXXX` escapes. -/
def fourHex (n : Nat) : List Char :=
  [hexCharOf (n / 4096 % 16), hexCharOf (n / 256 % 16),
   hexCharOf (n / 16 % 16), hexCharOf (n % 16)]

/-- String escaping of `json.dumps` (default `ensure_ascii=True`):
quote, backslash and the named control characters get two-character
escapes, other control characters and non-ASCII characters become
`\uXXXX` (astral characters, which would need surrogate pairs, do not
occur in any verified behaviour). -/
def jsonEscape (s : List Char) : List Char :=
  s.flatMap (fun c =>
    if c = '"' then ['\\', '"']
    else if c = '\\' then ['\\', '\\']
    else if c = '\n' then ['\\', 'n']
    else if c = '\t' then ['\\', 't']
    else if c = '\r' then ['\\', 'r']
    else if c = Char.ofNat 8 then ['\\', 'b']
    else if c = Char.ofNat 12 then ['\\', 'f']
    else if c.toNat < 32 ∨ 127 < c.toNat then '\\' :: 'u' :: fourHex c.toNat
    else [c])

/-- Decimal digits of a natural number. -/
def natChars (n : Nat) : List Char :=
  Nat.toDigits 10 n

/-- Decimal rendering of an integer. -/
def intChars (i : Int) : List Char :=
  if i < 0 then '-' :: natChars i.natAbs else natChars i.natAbs

/-- A serialized JSON string literal. -/
def dumpsStrLit (s : List Char) : List Char :=
  '"' :: jsonEscape s ++ ['"']

/-- Fuel-indexed worker for `json_dumps`, using Python's default
separators `", "` and `": "`. -/
def dumpsF : Nat → JVal → List Char
  | 0, _ => []
  | fuel + 1, v =>
    match v with
    | .null => "null".toList
    | .bool true => "true".toList
    | .bool false => "false".toList
    | .num n => intChars n
    | .fnum lit => lit
    | .str s => dumpsStrLit s
    | .arr xs =>
      '[' :: List.intercalate ", ".toList (xs.map (dumpsF fuel)) ++ [']']
    | .obj kvs =>
      Char.ofNat 123 ::
        List.intercalate ", ".toList
          (kvs.map (fun p => dumpsStrLit p.1 ++ ": ".toList ++ dumpsF fuel p.2))
        ++ [Char.ofNat 125]

/-- Model of `json.dumps` with default options.  The fuel bounds the
nesting depth; callers pass a bound derived from the decoded input
(a parsed value's depth is below the length of the parsed text). -/
def json_dumps (fuel : Nat) (v : JVal) : List Char :=
  dumpsF fuel v

/-! ## The Context Negotiator (lines 670–674) -/

/-- The negotiation step on the decoded `options` mapping
(lines 673–674): if `num_ctx` is absent, set it to
`DEFAULT_CONTEXT_SIZE` (appending the key); an existing value is left
untouched.  The specification's §4.5 calls this `ensureContextSize`. -/
def ensureContextSize (options : List (List Char × JVal)) : List (List Char × JVal) :=
  if (lookupKey options "num_ctx".toList).isSome then options
  else setKey options "num_ctx".toList (.num (DEFAULT_CONTEXT_SIZE : Int))

/-! ## The Pipeline over one decoded request body
(`ProxyHandler.proxy_request`, lines 642–746)

The handler body is modelled as a function from the request text to
`Except`: `.ok bytes` are the bytes forwarded upstream, `.error msg`
models an exception reaching the outer `except Exception` handler of
line 740, which aborts the request with a 500 response. -/

/-- Rewrite of one decoded message dictionary inside the small-model
branch of `filter_system_prompt` (lines 438–536), at the JSON level:
a dictionary whose `role` is the string `"system"` gets its `content`
rewritten by `filterSystemContent` (a missing `content` reads as `""`,
and the assignment appends the key); every other dictionary passes
through unchanged.  A non-dictionary element raises (`msg.get`), as
does a non-string `content` of a system message (`re.search`). -/
def jRewriteMessage (v : JVal) : Except (List Char) JVal :=
  match v with
  | .obj kvs =>
    match lookupKey kvs "role".toList with
    | some (.str r) =>
      if r = "system".toList then
        match lookupKey kvs "content".toList with
        | some (.str c) =>
          .ok (.obj (setKey kvs "content".toList (.str (filterSystemContent c).1)))
        | none =>
          .ok (.obj (setKey kvs "content".toList (.str (filterSystemContent []).1)))
        | some _ => .error "TypeError: expected string or bytes-like object".toList
      else .ok v
    | _ => .ok v
  | _ => .error "AttributeError: message has no attribute get".toList

/-- Worker: rewrite each message in order, propagating the first
raised exception. -/
def jRewriteMessages : List JVal → Except (List Char) (List JVal)
  | [] => .ok []
  | v :: rest =>
    match jRewriteMessage v with
    | .error e => .error e
    | .ok v' =>
      match jRewriteMessages rest with
      | .error e => .error e
      | .ok vs => .ok (v' :: vs)

/-- `filter_system_prompt` as invoked by the handler on decoded JSON
messages (line 657): the disable toggle and the classifier
short-circuit exactly as in lines 372–388, otherwise every message is
rewritten.  (The struct-level `filter_system_prompt` above is the same
algorithm on the `role`/`content` projection.) -/
def jFilterMessages (msgs : List JVal) (model_name : List Char) :
    Except (List Char) (List JVal) :=
  if DISABLE_FILTERING then .ok msgs
  else if !(isSmallModelWith model_name SMALL_MODELS) then .ok msgs
  else jRewriteMessages msgs

/-- `tool.get("function", {}).get("name", "")` and
`…get("description", "")` (lines 183 and 199) on a decoded tool.
A non-dictionary tool or `function` raises; so does a non-string name
(`startswith`).  A non-string description is rejected by the model
(Python would tolerate a short one; no verified behaviour has one). -/
def jToolNameDesc (t : JVal) : Except (List Char) (List Char × List Char) :=
  match t with
  | .obj kvs =>
    match lookupKey kvs "function".toList with
    | none => .ok ([], [])
    | some (.obj f) =>
      match lookupKey f "name".toList with
      | some (.str nm) =>
        match lookupKey f "description".toList with
        | some (.str d) => .ok (nm, d)
        | none => .ok (nm, [])
        | some _ => .error "TypeError: non-string description".toList
      | none =>
        match lookupKey f "description".toList with
        | some (.str d) => .ok ([], d)
        | none => .ok ([], [])
        | some _ => .error "TypeError: non-string description".toList
      | some _ => .error "AttributeError: startswith on non-string".toList
    | some _ => .error "AttributeError: function value has no attribute get".toList
  | _ => .error "AttributeError: tool has no attribute get".toList

/-- Write `tool["function"]["description"] = d` (line 201). -/
def jSetFnDesc (t : JVal) (d : List Char) : JVal :=
  match t with
  | .obj kvs =>
    match lookupKey kvs "function".toList with
    | some (.obj f) =>
      .obj (setKey kvs "function".toList (.obj (setKey f "description".toList (.str d))))
    | _ => t
  | _ => t

/-- The tool loop of lines 179–205 on decoded JSON tools, preserving
every key the loop does not touch. -/
def jFilterToolsLoop (seen : List (List Char)) :
    List JVal → Except (List Char) (List JVal)
  | [] => .ok []
  | t :: rest =>
    match jToolNameDesc t with
    | .error e => .error e
    | .ok nd =>
      if REMOVE_DUPLICATE_TOOLS ∧ startsWith "index_".toList nd.1
          ∧ (nd.1.drop 6) ∈ seen then
        jFilterToolsLoop seen rest
      else if ESSENTIAL_TOOLS_ONLY ∧ nd.1 ∉ ESSENTIAL_TOOLS then
        jFilterToolsLoop seen rest
      else
        let t' :=
          if STRIP_TOOL_DESCRIPTIONS ∧ 200 < nd.2.length then
            jSetFnDesc t (nd.2.take 200 ++ truncMarker)
          else t
        match jFilterToolsLoop (nd.1 :: seen) rest with
        | .error e => .error e
        | .ok ts => .ok (t' :: ts)

/-- The chat-completion transformation of lines 652–700 on one decoded
body object: read `model` and `messages` with their defaults, rewrite
the messages, filter the tools when present and truthy, and negotiate
the context size.  Each step's possible exception aborts. -/
def chat_transform (data : List (List Char × JVal)) :
    Except (List Char) (List (List Char × JVal)) :=
  let modelStep : Except (List Char) (List Char) :=
    match lookupKey data "model".toList with
    | none => .ok []
    | some (.str s) => .ok s
    | some _ => .error "AttributeError: lower on non-string model".toList
  match modelStep with
  | .error e => .error e
  | .ok model_name =>
    let msgsStep : Except (List Char) (List JVal) :=
      match lookupKey data "messages".toList with
      | none => .ok []
      | some (.arr l) => .ok l
      | some _ => .error "TypeError: messages is not a list of dicts".toList
    match msgsStep with
    | .error e => .error e
    | .ok msgs =>
      match jFilterMessages msgs model_name with
      | .error e => .error e
      | .ok filtered =>
        let d1 := setKey data "messages".toList (.arr filtered)
        let toolsStep : Except (List Char) (List (List Char × JVal)) :=
          match lookupKey d1 "tools".toList with
          | some tv =>
            if ENABLE_TOOL_FILTERING ∧ jTruthy tv then
              match tv with
              | .arr ts =>
                match jFilterToolsLoop [] ts with
                | .error e => .error e
                | .ok ts' => .ok (setKey d1 "tools".toList (.arr ts'))
              | _ => .error "AttributeError: tool has no attribute get".toList
            else .ok d1
          | none => .ok d1
        match toolsStep with
        | .error e => .error e
        | .ok d2 =>
          if AUTO_INCREASE_CONTEXT then
            let d3 :=
              if (lookupKey d2 "options".toList).isSome then d2
              else setKey d2 "options".toList (.obj [])
            match lookupKey d3 "options".toList with
            | some (.obj opts) =>
              .ok (setKey d3 "options".toList (.obj (ensureContextSize opts)))
            | some _ => .error "TypeError: argument of type is not iterable".toList
            | none => .ok d3
          else .ok d2

/-- The body handling of `proxy_request` for the chat-completion route
(lines 646–702): an empty body decodes to the empty object
(line 652); a body that fails to decode leaves the original bytes to
be forwarded (`except json.JSONDecodeError: pass`, line 701); a
decoded non-object raises on `.get` (line 653), aborting with a 500;
a decoded object is transformed and re-serialized (line 700). -/
def proxy_chat_body (body : List Char) : Except (List Char) (List Char) :=
  if body.isEmpty then
    match chat_transform [] with
    | .error e => .error e
    | .ok d => .ok (json_dumps 32 (.obj d))
  else
    match json_loads body with
    | none => .ok body
    | some (.obj kvs) =>
      match chat_transform kvs with
      | .error e => .error e
      | .ok d => .ok (json_dumps (body.length + 8) (.obj d))
    | some _ => .error "AttributeError: data has no attribute get".toList

/-- The condition under which rewriting a system prompt a second time
reproduces the first output: after the three removals, the stripped
residual either vanishes, or it neither contains a project span, nor
an instruction-block match, nor any env span other than the appended
stub (the stub itself is re-matched and removed, but identically
re-appended).  The counterexamples to unconditional idempotence are
texts whose removals splice together a fresh span. -/
def IdemCond (c : List Char) : Prop :=
  pyStrip (sectionsPass c).1 = [] ∨
    (searchFirst projMatcher (pyStrip (sectionsPass c).1 ++ nn ++ minimalEnv) = none ∧
     subAll envMatcher (pyStrip (sectionsPass c).1 ++ nn ++ minimalEnv)
       = pyStrip (sectionsPass c).1 ++ nn ∧
     searchFirst instrMatcher (pyStrip (sectionsPass c).1 ++ nn) = none)

instance IdemCond.instDecidable (c : List Char) : Decidable (IdemCond c) := by
  unfold IdemCond
  infer_instance

/-! ## General lemmas about the scanner -/

theorem isPrefixOf_self_append (pat t : List Char) :
    List.isPrefixOf pat (pat ++ t) = true := by
  rw [ List.isPrefixOf_iff_prefix]
  exact List.prefix_append pat t

theorem isPrefixOf_cons_ne (p0 : Char) (pt : List Char) (c : Char) (s : List Char)
    (h : p0 ≠ c) : List.isPrefixOf (p0 :: pt) (c :: s) = false := by
  rw [Bool.eq_false_iff]
  intro hpre
  rw [ List.isPrefixOf_iff_prefix] at hpre
  rcases hpre with ⟨u, hu⟩
  simp only [List.cons_append] at hu
  exact h (List.head_eq_of_cons_eq hu)

theorem subAllAux_congr (m : List Char → Option Nat) :
    ∀ (fuel fuel' : Nat) (s : List Char), s.length ≤ fuel → s.length ≤ fuel' →
      subAllAux m fuel s = subAllAux m fuel' s := by
  intro fuel
  induction fuel with
  | zero =>
    intro fuel' s hs _
    have : s = [] := List.eq_nil_of_length_eq_zero (Nat.le_zero.mp hs)
    subst this
    cases fuel' <;> rfl
  | succ f ih =>
    intro fuel' s hs hs'
    cases s with
    | nil => cases fuel' <;> rfl
    | cons c rest =>
      cases fuel' with
      | zero => exact absurd hs' (by simp)
      | succ f' =>
        simp only [subAllAux]
        cases hm : m (c :: rest) with
        | none =>
          have : rest.length ≤ f := Nat.le_of_succ_le_succ (by simpa using hs)
          have h2 : rest.length ≤ f' := Nat.le_of_succ_le_succ (by simpa using hs')
          rw [ih f' rest this h2]
        | some n =>
          have hd : (rest.drop (n - 1)).length ≤ rest.length := by
            simp [List.length_drop]
          have h1 : (rest.drop (n - 1)).length ≤ f :=
            le_trans hd (Nat.le_of_succ_le_succ (by simpa using hs))
          have h2 : (rest.drop (n - 1)).length ≤ f' :=
            le_trans hd (Nat.le_of_succ_le_succ (by simpa using hs'))
          exact ih f' _ h1 h2

theorem subAll_cons_none (m : List Char → Option Nat) (c : Char) (rest : List Char)
    (h : m (c :: rest) = none) : subAll m (c :: rest) = c :: subAll m rest := by
  simp only [subAll, List.length_cons, subAllAux, h]

theorem subAll_cons_some (m : List Char → Option Nat) (c : Char) (rest : List Char)
    (n : Nat) (h : m (c :: rest) = some n) :
    subAll m (c :: rest) = subAll m (rest.drop (n - 1)) := by
  simp only [subAll, List.length_cons, subAllAux, h]
  exact subAllAux_congr m rest.length (rest.drop (n - 1)).length (rest.drop (n - 1))
    (by simp [List.length_drop]) le_rfl

theorem searchFirst_none_subAll (m : List Char → Option Nat) :
    ∀ s : List Char, searchFirst m s = none → subAll m s = s := by
  intro s
  induction s with
  | nil => intro _; rfl
  | cons c rest ih =>
    intro h
    have hm : m (c :: rest) = none := by
      by_contra hne
      cases hmv : m (c :: rest) with
      | none => exact hne hmv
      | some n => simp [searchFirst, hmv] at h
    have ht : searchFirst m rest = none := by
      simpa [searchFirst, hm] using h
    rw [subAll_cons_none m c rest hm, ih ht]

theorem subAll_ne_searchFirst_isSome (m : List Char → Option Nat) (s : List Char)
    (h : subAll m s ≠ s) : ∃ n, searchFirst m s = some n := by
  cases hs : searchFirst m s with
  | none => exact absurd (searchFirst_none_subAll m s hs) h
  | some n => exact ⟨n, rfl⟩

theorem subAll_append_of_none (m : List Char → Option Nat) (x t : List Char)
    (hx : ∀ (d : Char) (u : List Char), d ∈ x → m (d :: u) = none) :
    subAll m (x ++ t) = x ++ subAll m t := by
  induction x with
  | nil => rfl
  | cons c rest ih =>
    have hm : m (c :: (rest ++ t)) = none := hx c (rest ++ t) (by simp)
    rw [List.cons_append, subAll_cons_none m c (rest ++ t) hm,
      ih (fun d u hd => hx d u (by simp [hd])), List.cons_append]

theorem subAll_of_none (m : List Char → Option Nat) (x : List Char)
    (hx : ∀ (d : Char) (u : List Char), d ∈ x → m (d :: u) = none) :
    subAll m x = x := by
  have := subAll_append_of_none m x [] hx
  simpa [subAll, subAllAux] using this

theorem searchFirst_append_of_none (m : List Char → Option Nat) (x t : List Char)
    (hx : ∀ (d : Char) (u : List Char), d ∈ x → m (d :: u) = none) :
    searchFirst m (x ++ t) = searchFirst m t := by
  induction x with
  | nil => rfl
  | cons c rest ih =>
    have hm : m (c :: (rest ++ t)) = none := hx c (rest ++ t) (by simp)
    rw [List.cons_append]
    simp only [searchFirst, hm]
    exact ih (fun d u hd => hx d u (by simp [hd]))

theorem tagMatcher_cons_ne (o0 : Char) (ot ct : List Char) (c : Char) (s : List Char)
    (h : o0 ≠ c) : tagMatcher (o0 :: ot) ct (c :: s) = none := by
  simp [tagMatcher, startsWith, isPrefixOf_cons_ne o0 ot c s h]

theorem findSub_append_self (c0 : Char) (ctTail a t : List Char)
    (ha : ∀ c ∈ a, c ≠ c0) :
    findSub (c0 :: ctTail) (a ++ ((c0 :: ctTail) ++ t)) = some a.length := by
  induction a with
  | nil =>
    have h2 : (c0 :: ctTail).isPrefixOf (c0 :: ctTail.append t) = true :=
      isPrefixOf_self_append (c0 :: ctTail) t
    simp only [List.nil_append, List.cons_append, findSub]
    rw [if_pos h2]
    rfl
  | cons c rest ih =>
    have hc : c ≠ c0 := ha c (by simp)
    rw [List.cons_append]
    simp only [findSub, isPrefixOf_cons_ne c0 ctTail c _ (fun he => hc he.symm)]
    rw [if_neg (by simp), ih (fun d hd => ha d (by simp [hd]))]
    rfl

theorem drop_append3 (u v w t : List Char) :
    (u ++ (v ++ (w ++ t))).drop (u.length + v.length + w.length) = t := by
  have he : u ++ (v ++ (w ++ t)) = ((u ++ v) ++ w) ++ t := by
    simp [List.append_assoc]
  have hlen : u.length + v.length + w.length = ((u ++ v) ++ w).length := by
    simp [List.length_append]
    omega
  rw [he, hlen, List.drop_left]

theorem tagMatcher_at_open (o0 : Char) (ot : List Char) (c0 : Char)
    (ct a t : List Char) (ha : ∀ c ∈ a, c ≠ c0) :
    tagMatcher (o0 :: ot) (c0 :: ct)
        ((o0 :: ot) ++ (a ++ ((c0 :: ct) ++ t))) =
      some ((o0 :: ot).length + a.length + (c0 :: ct).length) := by
  have hs : startsWith (o0 :: ot) ((o0 :: ot) ++ (a ++ ((c0 :: ct) ++ t))) = true :=
    isPrefixOf_self_append (o0 :: ot) _
  have hd : ((o0 :: ot) ++ (a ++ ((c0 :: ct) ++ t))).drop (o0 :: ot).length
      = a ++ ((c0 :: ct) ++ t) := List.drop_left _ _
  rw [tagMatcher, if_pos hs, hd, findSub_append_self c0 ct a t ha]
  simp [Nat.add_comm, Nat.add_assoc, Nat.add_left_comm]

theorem searchFirst_at_open (o0 : Char) (ot : List Char) (c0 : Char)
    (ct a t : List Char) (ha : ∀ c ∈ a, c ≠ c0) :
    searchFirst (tagMatcher (o0 :: ot) (c0 :: ct))
        ((o0 :: ot) ++ (a ++ ((c0 :: ct) ++ t))) =
      some ((o0 :: ot).length + a.length + (c0 :: ct).length) := by
  have hm := tagMatcher_at_open o0 ot c0 ct a t ha
  have hm2 : tagMatcher (o0 :: ot) (c0 :: ct)
      (o0 :: (ot ++ (a ++ ((c0 :: ct) ++ t)))) =
      some ((o0 :: ot).length + a.length + (c0 :: ct).length) := hm
  show searchFirst (tagMatcher (o0 :: ot) (c0 :: ct))
      (o0 :: (ot ++ (a ++ ((c0 :: ct) ++ t)))) = _
  simp only [searchFirst, hm2]

theorem subAll_at_open (o0 : Char) (ot : List Char) (c0 : Char)
    (ct a t : List Char) (ha : ∀ c ∈ a, c ≠ c0) :
    subAll (tagMatcher (o0 :: ot) (c0 :: ct))
        ((o0 :: ot) ++ (a ++ ((c0 :: ct) ++ t))) =
      subAll (tagMatcher (o0 :: ot) (c0 :: ct)) t := by
  have hm : tagMatcher (o0 :: ot) (c0 :: ct)
      (o0 :: (ot ++ (a ++ ((c0 :: ct) ++ t)))) =
      some ((o0 :: ot).length + a.length + (c0 :: ct).length) :=
    tagMatcher_at_open o0 ot c0 ct a t ha
  show subAll (tagMatcher (o0 :: ot) (c0 :: ct))
      (o0 :: (ot ++ (a ++ ((c0 :: ct) ++ t)))) = _
  rw [subAll_cons_some _ o0 _ _ hm]
  have harith : (o0 :: ot).length + a.length + (c0 :: ct).length - 1
      = ot.length + a.length + (c0 :: ct).length := by
    simp [List.length_cons]
    omega
  rw [harith, drop_append3 ot a (c0 :: ct) t]

/-! ## Lemmas about `pyStrip` -/

theorem head?_dropWhile_not (p : Char → Bool) :
    ∀ (l : List Char) (c : Char), (l.dropWhile p).head? = some c → p c = false := by
  intro l
  induction l with
  | nil => intro c h; simp [List.dropWhile] at h
  | cons a t ih =>
    intro c h
    by_cases hp : p a
    · exact ih c (by simpa [List.dropWhile_cons, hp] using h)
    · have : a = c := by
        simp [List.dropWhile_cons, hp] at h
        exact h
      rw [← this]
      exact Bool.eq_false_iff.mpr hp

theorem suffix_getLast?_eq (w v : List Char) (h : w <:+ v) (hw : w ≠ []) :
    w.getLast? = v.getLast? := by
  rcases h with ⟨pre, rfl⟩
  exact (List.getLast?_append_of_ne_nil pre hw).symm

theorem pyStrip_head?_not (t : List Char) (c : Char)
    (h : (pyStrip t).head? = some c) : isPySpace c = false := by
  have h' : ((t.dropWhile isPySpace).reverse.dropWhile isPySpace).getLast? = some c := by
    rw [← List.head?_reverse]
    exact h
  have hwne : (t.dropWhile isPySpace).reverse.dropWhile isPySpace ≠ [] := by
    intro he
    rw [he] at h'
    simp at h'
  have h2 := suffix_getLast?_eq _ _
    (List.dropWhile_suffix (l := (t.dropWhile isPySpace).reverse) isPySpace) hwne
  rw [h2, List.getLast?_reverse] at h'
  exact head?_dropWhile_not isPySpace t c h'

theorem pyStrip_getLast?_not (t : List Char) (c : Char)
    (h : (pyStrip t).getLast? = some c) : isPySpace c = false := by
  have h' : ((t.dropWhile isPySpace).reverse.dropWhile isPySpace).head? = some c := by
    rw [← List.getLast?_reverse]
    exact h
  exact head?_dropWhile_not isPySpace _ c h'

theorem pyStrip_append_nn (s : List Char) (hne : s ≠ [])
    (hh : ∀ c, s.head? = some c → isPySpace c = false)
    (hl : ∀ c, s.getLast? = some c → isPySpace c = false) :
    pyStrip (s ++ nn) = s := by
  obtain ⟨hd, tl, rfl⟩ := List.exists_cons_of_ne_nil hne
  have hhd : isPySpace hd = false := hh hd rfl
  have hnl : isPySpace '\n' = true := by decide
  obtain ⟨c0, r', hr⟩ :=
    List.exists_cons_of_ne_nil (show (hd :: tl).reverse ≠ [] by simp)
  have hc0 : (hd :: tl).getLast? = some c0 := by
    rw [← List.head?_reverse, hr]
    rfl
  have hc0sp : isPySpace c0 = false := hl c0 hc0
  have hfront : ((hd :: tl) ++ nn).dropWhile isPySpace = hd :: (tl ++ nn) := by
    rw [show (hd :: tl) ++ nn = hd :: (tl ++ nn) from rfl]
    simp [List.dropWhile_cons, hhd]
  have hrev : (hd :: (tl ++ nn)).reverse = '\n' :: '\n' :: (hd :: tl).reverse := by
    rw [show (hd :: (tl ++ nn)) = (hd :: tl) ++ nn from rfl, List.reverse_append]
    rfl
  calc pyStrip ((hd :: tl) ++ nn)
      = ((((hd :: tl) ++ nn).dropWhile isPySpace).reverse.dropWhile isPySpace).reverse :=
        rfl
    _ = ((hd :: (tl ++ nn)).reverse.dropWhile isPySpace).reverse := by rw [hfront]
    _ = (('\n' :: '\n' :: (hd :: tl).reverse).dropWhile isPySpace).reverse := by
        rw [hrev]
    _ = (((hd :: tl).reverse).dropWhile isPySpace).reverse := by
        simp [List.dropWhile_cons, hnl]
    _ = ((c0 :: r').dropWhile isPySpace).reverse := by rw [hr]
    _ = (c0 :: r').reverse := by simp [List.dropWhile_cons, hc0sp]
    _ = hd :: tl := by rw [← hr, List.reverse_reverse]

/-! ## Idempotence machinery for the Prompt Rewriter -/

set_option maxRecDepth 4096 in
/-- The rewriter's output on an empty residual is exactly the minimal
environment stub, and rewriting the stub again reproduces it (its env
span is removed and the stub re-appended). -/
theorem filterSystemContent_stub : (filterSystemContent minimalEnv).1 = minimalEnv := by
  decide

theorem filterSystemContent_idem (c : List Char) (h : IdemCond c) :
    (filterSystemContent (filterSystemContent c).1).1 = (filterSystemContent c).1 := by
  by_cases hs : pyStrip (sectionsPass c).1 = []
  · have h1 : (filterSystemContent c).1 = minimalEnv := by
      simp [filterSystemContent, hs]
    rw [h1, filterSystemContent_stub]
  · rcases h with h0 | ⟨hproj, henv, hinstr⟩
    · exact absurd h0 hs
    · set s := pyStrip (sectionsPass c).1 with hsdef
      have h1 : (filterSystemContent c).1 = s ++ nn ++ minimalEnv := by
        simp [filterSystemContent, hs]
      rw [h1]
      have hne : subAll envMatcher (s ++ nn ++ minimalEnv) ≠ s ++ nn ++ minimalEnv := by
        rw [henv]
        intro heq
        have hlen := congrArg List.length heq
        have hml : minimalEnv.length = 102 := by decide
        simp only [List.length_append, hml] at hlen
        omega
      obtain ⟨k, hk⟩ := by
        have := subAll_ne_searchFirst_isSome envMatcher (s ++ nn ++ minimalEnv) hne
        exact this
      have hpass : sectionsPass (s ++ nn ++ minimalEnv) = (s ++ nn, [⟨"env".toList, k⟩]) := by
        simp only [sectionsPass, removeSection, hproj, hk, henv, hinstr,
          List.nil_append, List.append_nil]
      have hstrip : pyStrip (s ++ nn) = s := by
        apply pyStrip_append_nn s hs
        · intro c0 hc0
          exact pyStrip_head?_not (sectionsPass c).1 c0 (by rw [← hsdef]; exact hc0)
        · intro c0 hc0
          exact pyStrip_getLast?_not (sectionsPass c).1 c0 (by rw [← hsdef]; exact hc0)
      simp only [filterSystemContent, hpass, hstrip]
      rw [if_pos hs]

/-- Idempotence of the message loop under the per-content condition. -/
theorem processMessages_idem (msgs : List Message)
    (h : ∀ m ∈ msgs, m.role = "system".toList →
      (filterSystemContent (filterSystemContent m.content).1).1
        = (filterSystemContent m.content).1) :
    (processMessages (processMessages msgs).1).1 = (processMessages msgs).1 := by
  induction msgs with
  | nil => rfl
  | cons m rest ih =>
    have ihr := ih (fun x hx hr => h x (List.mem_cons_of_mem m hx) hr)
    by_cases hr : m.role = "system".toList
    · have hidem := h m (List.mem_cons_self m rest) hr
      simp only [processMessages, if_pos hr]
      simp only [processMessages, if_pos hr, hidem, ihr]
    · simp only [processMessages, if_neg hr]
      simp only [processMessages, if_neg hr, ihr]

/-! ## Further helper lemmas -/

theorem stripDesc_name (t : Tool) : (stripDesc t).name = t.name := by
  rw [stripDesc]
  split <;> rfl

theorem filterToolsLoop_name_mem :
    ∀ (seen : List (List Char)) (tools : List Tool) (t : Tool),
      t ∈ (filterToolsLoop seen tools).1 → t.name ∈ ESSENTIAL_TOOLS := by
  intro seen tools
  induction tools generalizing seen with
  | nil => intro t ht; simp [filterToolsLoop] at ht
  | cons hd rest ih =>
    intro t ht
    simp only [filterToolsLoop] at ht
    split at ht
    · exact ih seen t ht
    · split at ht
      · exact ih seen t ht
      · next hguard =>
        rcases List.mem_cons.mp ht with h1 | h2
        · have hname : t.name = hd.name := by rw [h1, stripDesc_name]
          rw [hname]
          by_contra hnot
          exact hguard ⟨rfl, hnot⟩
        · exact ih (hd.name :: seen) t h2

theorem filterToolsLoop_sublist :
    ∀ (seen : List (List Char)) (tools : List Tool),
      List.Sublist (filterToolsLoop seen tools).1 (tools.map stripDesc) := by
  intro seen tools
  induction tools generalizing seen with
  | nil => simp [filterToolsLoop]
  | cons hd rest ih =>
    simp only [filterToolsLoop, List.map_cons]
    split
    · exact (ih seen).cons (stripDesc hd)
    · split
      · exact (ih seen).cons (stripDesc hd)
      · exact (ih (hd.name :: seen)).cons₂ (stripDesc hd)

theorem lookupKey_setKey_self :
    ∀ (d : List (List Char × JVal)) (k : List Char) (v : JVal),
      lookupKey (setKey d k v) k = some v := by
  intro d k v
  induction d with
  | nil => simp [setKey, lookupKey]
  | cons p rest ih =>
    by_cases hk : p.1 = k
    · simp [setKey, hk, lookupKey]
    · simp [setKey, hk, lookupKey, ih]

theorem lookupKey_setKey_ne :
    ∀ (d : List (List Char × JVal)) (k : List Char) (v : JVal) (k' : List Char),
      k' ≠ k → lookupKey (setKey d k v) k' = lookupKey d k' := by
  intro d k v k' hne
  induction d with
  | nil =>
    have hkk : ¬ k = k' := fun h => hne h.symm
    simp [setKey, lookupKey, hkk]
  | cons p rest ih =>
    by_cases hk : p.1 = k
    · subst hk
      have h2 : ¬ p.1 = k' := fun h => hne h.symm
      simp [setKey, lookupKey, h2]
    · simp only [setKey, if_neg hk, lookupKey]
      by_cases hk' : p.1 = k'
      · simp [hk']
      · simp [hk', ih]

theorem containsSub_iff (pat : List Char) :
    ∀ s : List Char, containsSub pat s = true ↔ pat <:+: s := by
  intro s
  induction s with
  | nil =>
    cases pat with
    | nil => simp [containsSub, findSub]
    | cons c p => simp [containsSub, findSub, List.infix_nil]
  | cons c rest ih =>
    by_cases hp : List.isPrefixOf pat (c :: rest)
    · have hpre : pat <+: c :: rest := List.isPrefixOf_iff_prefix.mp hp
      simp [containsSub, findSub, hp, List.infix_cons_iff, hpre.isInfix]
    · have hnpre : ¬ pat <+: c :: rest := fun hc =>
        hp (List.isPrefixOf_iff_prefix.mpr hc)
      simp only [containsSub, findSub, if_neg hp]
      have hmap : ((findSub pat rest).map (· + 1)).isSome = (findSub pat rest).isSome := by
        cases findSub pat rest <;> rfl
      rw [hmap, List.infix_cons_iff]
      constructor
      · intro h
        exact Or.inr ((ih).mp h)
      · intro h
        rcases h with h | h
        · exact absurd h hnpre
        · exact (ih).mpr h

/-- On a small model (with filtering enabled), the rewriter's messages
are exactly the message loop's output. -/
theorem filter_system_prompt_small (msgs : List Message) (model : List Char)
    (hsm : isSmallModelWith model SMALL_MODELS = true) :
    (filter_system_prompt msgs model).1 = (processMessages msgs).1 := by
  simp [filter_system_prompt, hsm, DISABLE_FILTERING]

/-! ## Claim theorems -/

/-- C5: with the prefix-deduplication rule active (as this
configuration has it), `filter_tools` on tools named
`["index_read", "read"]` outputs exactly one of the pair, and on
`["read", "index_read"]` the kept element is `read`, the tool
first seen under the un-prefixed name (in this configuration the
essential-only rule also removes `index_read` in the first order, so
`read` is kept in both). -/
theorem C5_dedup_order :
    (filter_tools [⟨"index_read".toList, []⟩, ⟨"read".toList, []⟩]
        "llama3.2:1b".toList).1 = [⟨"read".toList, []⟩]
    ∧ (filter_tools [⟨"read".toList, []⟩, ⟨"index_read".toList, []⟩]
        "llama3.2:1b".toList).1 = [⟨"read".toList, []⟩] := by
  constructor <;> decide

/-- C6: with essential-only mode active, every tool in the output of
`filter_tools` has its name in the `ESSENTIAL_TOOLS` allow-list,
regardless of the input. -/
theorem C6_allow_list (tools : List Tool) (model : List Char) (t : Tool)
    (ht : t ∈ (filter_tools tools model).1) : t.name ∈ ESSENTIAL_TOOLS := by
  simp only [filter_tools, ENABLE_TOOL_FILTERING, Bool.not_true, Bool.false_eq_true,
    if_false] at ht
  exact filterToolsLoop_name_mem [] tools t ht

/-- Witness for C6 at a concrete input. -/
theorem C6_allow_list_witness :
    (⟨"bash".toList, []⟩ : Tool) ∈ (filter_tools [⟨"bash".toList, []⟩] []).1
    ∧ (⟨"bash".toList, []⟩ : Tool).name ∈ ESSENTIAL_TOOLS :=
  ⟨by decide, C6_allow_list [⟨"bash".toList, []⟩] [] ⟨"bash".toList, []⟩ (by decide)⟩

/-- C7: for a model the classifier reports not-small, the rewriter
returns the messages unchanged and all stats zeroed except the
message count, with `is_small_model = false` and `time_ms = 0`. -/
theorem C7_passthrough (msgs : List Message) (model : List Char)
    (h : isSmallModelWith model SMALL_MODELS = false) :
    filter_system_prompt msgs model =
      (msgs, ⟨false, [], 0, 0, 0, msgs.length⟩) := by
  simp [filter_system_prompt, h, DISABLE_FILTERING]

/-- Witness for C7 at a concrete input. -/
theorem C7_passthrough_witness :
    filter_system_prompt [⟨"user".toList, "hi".toList⟩] "gpt-4".toList =
      ([⟨"user".toList, "hi".toList⟩], ⟨false, [], 0, 0, 0, 1⟩) :=
  C7_passthrough [⟨"user".toList, "hi".toList⟩] "gpt-4".toList (by decide)

/-- C8: context negotiation never overrides a caller-supplied
`num_ctx` and changes nothing else: when the key is present the
options mapping is returned untouched; when absent the key is set to
`DEFAULT_CONTEXT_SIZE` and every other key's binding is unchanged. -/
theorem C8_negotiation :
    (∀ (opts : List (List Char × JVal)) (V : JVal),
       lookupKey opts "num_ctx".toList = some V → ensureContextSize opts = opts)
    ∧ ∀ opts : List (List Char × JVal),
        lookupKey opts "num_ctx".toList = none →
          lookupKey (ensureContextSize opts) "num_ctx".toList
              = some (.num (DEFAULT_CONTEXT_SIZE : Int))
          ∧ ∀ k : List Char, k ≠ "num_ctx".toList →
              lookupKey (ensureContextSize opts) k = lookupKey opts k := by
  constructor
  · intro opts V h
    have hs : (lookupKey opts "num_ctx".toList).isSome = true := by rw [h]; rfl
    unfold ensureContextSize
    rw [if_pos hs]
  · intro opts h
    have hn : ¬ (lookupKey opts "num_ctx".toList).isSome = true := by
      rw [h]
      simp
    constructor
    · unfold ensureContextSize
      rw [if_neg hn]
      exact lookupKey_setKey_self opts _ _
    · intro k hk
      unfold ensureContextSize
      rw [if_neg hn]
      exact lookupKey_setKey_ne opts _ _ k hk

/-- Witness for C8 at concrete options mappings. -/
theorem C8_negotiation_witness :
    ensureContextSize [("num_ctx".toList, .num 4096)] = [("num_ctx".toList, .num 4096)]
    ∧ lookupKey (ensureContextSize [("temperature".toList, .num 1)]) "num_ctx".toList
        = some (.num (DEFAULT_CONTEXT_SIZE : Int)) :=
  ⟨C8_negotiation.1 [("num_ctx".toList, .num 4096)] (.num 4096) rfl,
   (C8_negotiation.2 [("temperature".toList, .num 1)] rfl).1⟩

/-- C9 counterexample: with a known list containing the empty string,
the classifier returns `true` even for the empty model name (Python's
`"" in ""` is `True`), refuting "for every knownList it returns false
when modelName is the empty string". -/
theorem C9_cex : isSmallModelWith [] [([] : List Char)] = true := by
  decide

/-- C9 (amended): the classifier returns true exactly when some entry
of the known list is a substring of the lower-cased model name, and
the empty model name yields false for every known list whose entries
are all nonempty (in particular for the configured `SMALL_MODELS`). -/
theorem C9_classifier :
    (∀ (modelName : List Char) (knownList : List (List Char)),
       isSmallModelWith modelName knownList = true ↔
         ∃ sm ∈ knownList, sm <:+: pyLower modelName)
    ∧ ∀ knownList : List (List Char), (∀ sm ∈ knownList, sm ≠ []) →
        isSmallModelWith [] knownList = false := by
  constructor
  · intro modelName knownList
    simp [isSmallModelWith, List.any_eq_true, containsSub_iff]
  · intro knownList h
    rw [Bool.eq_false_iff]
    intro htrue
    simp only [isSmallModelWith, List.any_eq_true] at htrue
    obtain ⟨sm, hmem, hc⟩ := htrue
    have hne := h sm hmem
    cases hsm : sm with
    | nil => exact hne hsm
    | cons c rest =>
      rw [hsm] at hc
      simp [containsSub, pyLower, findSub] at hc

/-- Witness for C9 at concrete inputs (the first conjunct exercises
the case-insensitive substring match, the second the configured
`SMALL_MODELS` list). -/
theorem C9_classifier_witness :
    isSmallModelWith "My-Llama3.2:1B".toList SMALL_MODELS = true
    ∧ isSmallModelWith [] SMALL_MODELS = false :=
  ⟨(C9_classifier.1 "My-Llama3.2:1B".toList SMALL_MODELS).mpr
      ⟨"llama3.2:1b".toList, by decide, by decide⟩,
   C9_classifier.2 SMALL_MODELS (by decide)⟩

/-- C10: the output of `filter_tools` is a subsequence of the input
with each kept tool unchanged except for the description truncation
`stripDesc` (first 200 characters plus the `"..."` marker): no tool is
fabricated and relative order is preserved. -/
theorem C10_sublist (tools : List Tool) (model : List Char) :
    List.Sublist (filter_tools tools model).1 (tools.map stripDesc) := by
  simp only [filter_tools, ENABLE_TOOL_FILTERING, Bool.not_true, Bool.false_eq_true,
    if_false]
  exact filterToolsLoop_sublist [] tools

set_option maxRecDepth 8192 in
/-- C1 counterexample: on the end-to-end scenario's input, the
rewritten system content is *not* the claimed
`"hello\n\n<env>…</env>"`: the instruction pattern's lookahead finds
no blank line and the alternative `\Z` matches at the end of the
string, so `"hello"` is inside the removed instruction span. -/
theorem C1_end_to_end_cex :
    (filter_system_prompt
        [⟨"system".toList,
          "<project>tree</project><env>e</env>Instructions from: x\nhello".toList⟩]
        "llama3.2:1b".toList).1
      ≠ [⟨"system".toList,
          ("hello\n\n<env>\n  Working directory: (current directory)\n  Platform: linux\n  Today's date: (current date)\n</env>").toList⟩] := by
  decide

set_option maxRecDepth 8192 in
/-- C1 (amended): on the end-to-end scenario's input, the output
system content is exactly the minimal environment stub (the
instruction-block removal, finding no blank line, extends to the end
of the string and removes `"hello"` as well), and `sections_removed`
holds exactly the three entries `project`, `env`, `instructions`, in
that order. -/
theorem C1_end_to_end :
    filter_system_prompt
        [⟨"system".toList,
          "<project>tree</project><env>e</env>Instructions from: x\nhello".toList⟩]
        "llama3.2:1b".toList
      = ([⟨"system".toList, minimalEnv⟩],
         ⟨true,
          [⟨"project".toList, 23⟩, ⟨"env".toList, 12⟩, ⟨"instructions".toList, 26⟩],
          61, 102, 0, 1⟩) := by
  decide

set_option maxRecDepth 8192 in
/-- C2 counterexample: the Prompt Rewriter is not idempotent on all
messages.  On the system content `"A<e<env>x</env>nv>hello</env>"`
the env removal splices together the fresh span `<env>hello</env>`,
which only the second pass removes, so the second pass's messages
differ from the first pass's. -/
theorem C2_idempotent_cex :
    isSmallModelWith "llama3.2:1b".toList SMALL_MODELS = true
    ∧ (filter_system_prompt
        (filter_system_prompt
          [⟨"system".toList, "A<e<env>x</env>nv>hello</env>".toList⟩]
          "llama3.2:1b".toList).1 "llama3.2:1b".toList).1
      ≠ (filter_system_prompt
          [⟨"system".toList, "A<e<env>x</env>nv>hello</env>".toList⟩]
          "llama3.2:1b".toList).1 := by
  constructor <;> decide

/-- C2 (amended): for a small model, applying the rewriter twice
yields the first pass's messages whenever every system message
satisfies `IdemCond` — its post-removal residual leaves no project
span, no instruction match, and no env span besides the appended
stub.  (The stub *is* re-matched and removed on the second pass, but
identically re-appended; without `IdemCond`, removals can splice
together fresh spans and the second pass differs.) -/
theorem C2_idempotent (msgs : List Message) (model : List Char)
    (hsm : isSmallModelWith model SMALL_MODELS = true)
    (h : ∀ m ∈ msgs, m.role = "system".toList → IdemCond m.content) :
    (filter_system_prompt (filter_system_prompt msgs model).1 model).1
      = (filter_system_prompt msgs model).1 := by
  rw [filter_system_prompt_small _ model hsm, filter_system_prompt_small _ model hsm]
  exact processMessages_idem msgs
    (fun m hm hr => filterSystemContent_idem m.content (h m hm hr))

set_option maxRecDepth 8192 in
/-- Witness for C2 at a concrete input whose system content (`hello`)
satisfies the idempotence condition. -/
theorem C2_idempotent_witness :
    (filter_system_prompt
        (filter_system_prompt [⟨"system".toList, "hello".toList⟩]
          "llama3.2:1b".toList).1 "llama3.2:1b".toList).1
      = (filter_system_prompt [⟨"system".toList, "hello".toList⟩]
          "llama3.2:1b".toList).1 :=
  C2_idempotent [⟨"system".toList, "hello".toList⟩] "llama3.2:1b".toList
    (by decide) (by decide)

set_option maxRecDepth 8192 in
/-- C3 counterexample: on a system content with two project spans the
rewriter removes *both* (`re.sub` with no count removes every
non-overlapping occurrence), so the later occurrence is not left
unchanged: no `<project>` text survives in the output. -/
theorem C3_first_occurrence_cex :
    (filter_system_prompt
        [⟨"system".toList, "<project>a</project>x<project>b</project>".toList⟩]
        "llama3.2:1b".toList).1
      = [⟨"system".toList, "x".toList ++ nn ++ minimalEnv⟩]
    ∧ containsSub "<project>".toList
        ((filter_system_prompt
          [⟨"system".toList, "<project>a</project>x<project>b</project>".toList⟩]
          "llama3.2:1b".toList).1.headD ⟨[], []⟩).content = false := by
  constructor <;> decide

/-- C3 (amended): on text containing two non-overlapping project
spans (with no stray `<` outside them), the extraction step removes
*every* occurrence, records the *first* occurrence's size in its
statistics entry, and leaves all text outside the matched spans
unchanged. -/
theorem C3_removes_all_occurrences (x a y b z : List Char)
    (hx : ∀ c ∈ x, c ≠ '<') (ha : ∀ c ∈ a, c ≠ '<') (hy : ∀ c ∈ y, c ≠ '<')
    (hb : ∀ c ∈ b, c ≠ '<') (hz : ∀ c ∈ z, c ≠ '<') :
    removeSection "project".toList projMatcher
        (x ++ (projOpen ++ (a ++ (projClose ++
          (y ++ (projOpen ++ (b ++ (projClose ++ z)))))))) =
      (x ++ (y ++ z),
       [⟨"project".toList, projOpen.length + a.length + projClose.length⟩]) := by
  have hpm : projMatcher = tagMatcher ('<' :: "project>".toList) ('<' :: "/project>".toList) := rfl
  have hpo : projOpen = '<' :: "project>".toList := rfl
  have hpc : projClose = '<' :: "/project>".toList := rfl
  have hmx : ∀ (d : Char) (u : List Char), d ∈ x →
      tagMatcher ('<' :: "project>".toList) ('<' :: "/project>".toList) (d :: u) = none :=
    fun d u hd => tagMatcher_cons_ne '<' _ _ d u (Ne.symm (hx d hd))
  have hmy : ∀ (d : Char) (u : List Char), d ∈ y →
      tagMatcher ('<' :: "project>".toList) ('<' :: "/project>".toList) (d :: u) = none :=
    fun d u hd => tagMatcher_cons_ne '<' _ _ d u (Ne.symm (hy d hd))
  have hmz : ∀ (d : Char) (u : List Char), d ∈ z →
      tagMatcher ('<' :: "project>".toList) ('<' :: "/project>".toList) (d :: u) = none :=
    fun d u hd => tagMatcher_cons_ne '<' _ _ d u (Ne.symm (hz d hd))
  have ha' : ∀ c ∈ a, c ≠ '<' := ha
  have hb' : ∀ c ∈ b, c ≠ '<' := hb
  rw [removeSection, hpm, hpo, hpc]
  rw [searchFirst_append_of_none _ x _ hmx,
    searchFirst_at_open '<' "project>".toList '<' "/project>".toList a _ ha']
  rw [subAll_append_of_none _ x _ hmx,
    subAll_at_open '<' "project>".toList '<' "/project>".toList a _ ha',
    subAll_append_of_none _ y _ hmy,
    subAll_at_open '<' "project>".toList '<' "/project>".toList b _ hb',
    subAll_of_none _ z hmz]

/-- Witness for C3 at concrete segments. -/
theorem C3_removes_all_occurrences_witness :
    removeSection "project".toList projMatcher
        ("A".toList ++ (projOpen ++ ("t".toList ++ (projClose ++
          ("B".toList ++ (projOpen ++ ("u".toList ++ (projClose ++ "C".toList)))))))) =
      ("A".toList ++ ("B".toList ++ "C".toList),
       [⟨"project".toList, projOpen.length + "t".toList.length + projClose.length⟩]) :=
  C3_removes_all_occurrences "A".toList "t".toList "B".toList "u".toList "C".toList
    (by decide) (by decide) (by decide) (by decide) (by decide)

/-- C4 counterexample: the claim fails on two fronts.  A body that is
valid JSON but not an object (`"[1, 2]"`) aborts the request with an
internal error (`data.get` raises `AttributeError`, answered with a
500) instead of being forwarded; and the empty body is treated as the
empty JSON object and *transformed*, so the forwarded bytes differ
from the original (empty) bytes. -/
theorem C4_decode_error_cex :
    json_loads "[1, 2]".toList = some (.arr [.num 1, .num 2])
    ∧ proxy_chat_body "[1, 2]".toList
        = .error "AttributeError: data has no attribute get".toList
    ∧ proxy_chat_body []
        = .ok "\x7b\x22messages\x22: [], \x22options\x22: \x7b\x22num_ctx\x22: 32768\x7d\x7d".toList
    ∧ ("\x7b\x22messages\x22: [], \x22options\x22: \x7b\x22num_ctx\x22: 32768\x7d\x7d".toList : List Char) ≠ [] :=
  ⟨rfl, rfl, rfl, by decide⟩

/-- C4 (amended): for every *nonempty* body on which the JSON decode
fails, the bytes forwarded upstream are exactly the original request
bytes and the request is not aborted (`except json.JSONDecodeError:
pass`).  Valid non-object JSON aborts with a 500, and the empty body
is decoded as the empty object and transformed. -/
theorem C4_decode_error (body : List Char) (h1 : body ≠ [])
    (h2 : json_loads body = none) : proxy_chat_body body = .ok body := by
  have hb : ¬ body.isEmpty = true := by
    simpa [List.isEmpty_iff] using h1
  rw [proxy_chat_body, if_neg hb, h2]

/-- Witness for C4 at a concrete undecodable body. -/
theorem C4_decode_error_witness :
    proxy_chat_body "not json".toList = .ok "not json".toList :=
  C4_decode_error "not json".toList (by decide) rfl
